import Mathlib

/-
Verification development for the keychain search/resolution layer:
multi-store cursor (KCCursor.cpp), identity-preference resolution
(SecIdentity.cpp) and the storage manager (StorageManager.cpp).
-/

namespace KeychainModel

/-- Record type code CSSM_DL_DB_RECORD_ANY from the CDSA headers. -/
def CSSM_DL_DB_RECORD_ANY : Nat := 0x0000000A

/-- Record type code CSSM_DL_DB_RECORD_SYMMETRIC_KEY from the CDSA headers. -/
def CSSM_DL_DB_RECORD_SYMMETRIC_KEY : Nat := 0x00000011

/-- Record type code CSSM_DL_DB_RECORD_GENERIC_PASSWORD from the CDSA headers. -/
def CSSM_DL_DB_RECORD_GENERIC_PASSWORD : Nat := 0x80000000

/-- The four-character tag iprf used for identity preference records. -/
def iprfTag : Nat := 0x69707266

/-- OSStatus errSecItemNotFound. -/
def errSecItemNotFound : Int := -25300

/-- OSStatus errSecNoDefaultKeychain. -/
def errSecNoDefaultKeychain : Int := -25307

/-- OSStatus internalComponentErr. -/
def internalComponentErr : Int := -2070

/-- One record as returned by the per-store database query engine.
recordType is the stored CSSM record type; service, typeTag and usage
model the kSecServiceItemAttr, kSecTypeItemAttr and kSecScriptCodeItemAttr
attributes; payload stands for the stored persistent certificate
reference. -/
structure Rec where
  recordType : Nat
  service : String
  typeTag : Nat
  usage : Int
  payload : Nat
deriving DecidableEq

/-- The sequence of outcomes one store produces for successive
DbCursor next calls: each step either yields a record or throws a
CommonError with the given OSStatus.  The list end models the final
next call that returns false (end of data) without throwing. -/
abbrev StoreSeq := List (Except Int Rec)

/-- Records yielded by one store before its first thrown error (if any),
together with that error.  KCCursorImpl::next abandons a store at its
first thrown error and moves to the next keychain in the list. -/
def storeSteps : StoreSeq → List Rec × Option Int
  | [] => ([], none)
  | .error e :: _ => ([], some e)
  | .ok r :: rest =>
    let p := storeSteps rest
    (r :: p.1, p.2)

/-- Whether any DbCursor next call on this store returned without
throwing.  This is what clears mAllFailed in KCCursorImpl::next: the
flag is cleared after every non-throwing next call, including the one
that reports end of data, so it stays set only when the very first call
throws. -/
def storeSucceeded : StoreSeq → Bool
  | .error _ :: _ => false
  | _ => true

/-- The skip test from KCCursorImpl::next lines 204-207: when searching
all record types, skip the CSP/DL db blob (0x80008000) and symmetric
key records. -/
def skipRec (ct : Nat) (r : Rec) : Bool :=
  decide (ct = CSSM_DL_DB_RECORD_ANY) &&
    (decide (r.recordType = 0x80008000) ||
      decide (r.recordType = CSSM_DL_DB_RECORD_SYMMETRIC_KEY))

/-- The aggregate of a full iteration of KCCursorImpl::next over the
remaining search list.  Arguments thread the mAllFailed member and the
last caught OSStatus; at the end of the keychain list the last error is
re-raised iff mAllFailed is still set (lines 162-171),
otherwise the surviving (non-skipped) records are the result. -/
def scanFrom (ct : Nat) : List StoreSeq → Bool → Option Int → Except Int (List Rec)
  | [], allFailed, status =>
    match status with
    | some e => if allFailed then .error e else .ok []
    | none => .ok []
  | s :: rest, allFailed, status =>
    let yielded := (storeSteps s).1
    let allFailed2 := allFailed && !(storeSucceeded s)
    let status2 :=
      match (storeSteps s).2 with
      | some e => some e
      | none => status
    match scanFrom ct rest allFailed2 status2 with
    | .error e => .error e
    | .ok l => .ok (yielded.filter (fun r => !skipRec ct r) ++ l)

/-- Full scan of a freshly constructed cursor (mAllFailed starts true,
no error caught yet). -/
def KCCursorScan (ct : Nat) (stores : List StoreSeq) : Except Int (List Rec) :=
  scanFrom ct stores true none

/-- Sample preference record used in concrete scenarios. -/
def sampleRec : Rec :=
  { recordType := CSSM_DL_DB_RECORD_GENERIC_PASSWORD
    service := "svc", typeTag := iprfTag, usage := 0, payload := 1 }

/-- Sample record bearing the CSP/DL db blob record type. -/
def dbBlobRec : Rec :=
  { recordType := 0x80008000, service := "b", typeTag := 0, usage := 0, payload := 2 }

/-- Sample symmetric key record. -/
def symKeyRec : Rec :=
  { recordType := CSSM_DL_DB_RECORD_SYMMETRIC_KEY
    service := "k", typeTag := 0, usage := 0, payload := 3 }

lemma scanFrom_notAllFailed_ok (ct : Nat) :
    ∀ (stores : List StoreSeq) (status : Option Int),
      ∃ l, scanFrom ct stores false status = .ok l := by
  intro stores
  induction stores with
  | nil =>
    intro status
    cases status with
    | none => exact ⟨[], rfl⟩
    | some e => exact ⟨[], by simp [scanFrom]⟩
  | cons s rest ih =>
    intro status
    obtain ⟨l, hl⟩ := ih (match (storeSteps s).2 with
      | some e => some e
      | none => status)
    refine ⟨(storeSteps s).1.filter (fun r => !skipRec ct r) ++ l, ?_⟩
    simp only [scanFrom, Bool.false_and]
    rw [hl]

lemma scanFrom_some_success_ok (ct : Nat) :
    ∀ (stores : List StoreSeq) (allFailed : Bool) (status : Option Int),
      (∃ s ∈ stores, storeSucceeded s = true) →
      ∃ l, scanFrom ct stores allFailed status = .ok l := by
  intro stores
  induction stores with
  | nil =>
    intro allFailed status h
    obtain ⟨s, hs, _⟩ := h
    exact absurd hs (List.not_mem_nil s)
  | cons s0 rest ih =>
    intro allFailed status h
    obtain ⟨s, hs, hsucc⟩ := h
    rcases List.mem_cons.mp hs with heq | hmem
    · subst heq
      obtain ⟨l, hl⟩ := scanFrom_notAllFailed_ok ct rest
        (match (storeSteps s).2 with
          | some e => some e
          | none => status)
      refine ⟨(storeSteps s).1.filter (fun r => !skipRec ct r) ++ l, ?_⟩
      simp only [scanFrom, hsucc, Bool.not_true, Bool.and_false]
      rw [hl]
    · obtain ⟨l, hl⟩ := ih (allFailed && !(storeSucceeded s0))
        (match (storeSteps s0).2 with
          | some e => some e
          | none => status) ⟨s, hmem, hsucc⟩
      refine ⟨(storeSteps s0).1.filter (fun r => !skipRec ct r) ++ l, ?_⟩
      simp only [scanFrom]
      rw [hl]

lemma storeSucceeded_false_shape (s : StoreSeq) (h : storeSucceeded s = false) :
    ∃ e tl, s = .error e :: tl := by
  match s with
  | [] => simp [storeSucceeded] at h
  | .ok r :: rest => simp [storeSucceeded] at h
  | .error e :: tl => exact ⟨e, tl, rfl⟩

lemma scanFrom_all_failed (ct : Nat) :
    ∀ (init : List StoreSeq) (e : Int) (tl : StoreSeq) (status : Option Int),
      (∀ s ∈ init, storeSucceeded s = false) →
      scanFrom ct (init ++ [.error e :: tl]) true status = .error e := by
  intro init
  induction init with
  | nil =>
    intro e tl status _
    simp [scanFrom, storeSteps, storeSucceeded]
  | cons s0 rest ih =>
    intro e tl status hall
    have h0 : storeSucceeded s0 = false := hall s0 (List.mem_cons_self s0 rest)
    obtain ⟨e0, tl0, hs0⟩ := storeSucceeded_false_shape s0 h0
    subst hs0
    have hrest : ∀ s ∈ rest, storeSucceeded s = false := by
      intro s hs; exact hall s (List.mem_cons_of_mem _ hs)
    simp only [List.cons_append, scanFrom, storeSteps, storeSucceeded,
      Bool.not_false, Bool.and_true]
    rw [List.append_eq, ih e tl (some e0) hrest]

/-- C1: per-store failures inside a multi-store scan are swallowed and
the scan advances to the next store; the last such failure is
re-raised only if every store in the list failed.  In particular a
scan whose first store throws, second has no match and third has a
match yields the third match, and a scan in which every store throws
the same error yields that error. -/
theorem C1_scan_failure_aggregation :
    (∀ (ct : Nat) (stores : List StoreSeq),
      (∃ s ∈ stores, storeSucceeded s = true) →
      ∃ l, KCCursorScan ct stores = .ok l) ∧
    (∀ (ct : Nat) (init : List StoreSeq) (e : Int) (tl : StoreSeq),
      (∀ s ∈ init, storeSucceeded s = false) →
      KCCursorScan ct (init ++ [.error e :: tl]) = .error e) ∧
    KCCursorScan CSSM_DL_DB_RECORD_GENERIC_PASSWORD
      [[.error 5], [], [.ok sampleRec]] = .ok [sampleRec] ∧
    KCCursorScan CSSM_DL_DB_RECORD_GENERIC_PASSWORD
      [[.error 7], [.error 7], [.error 7]] = .error 7 := by
  refine ⟨?_, ?_, ?_, ?_⟩
  · intro ct stores h
    exact scanFrom_some_success_ok ct stores true none h
  · intro ct init e tl hall
    exact scanFrom_all_failed ct init e tl none hall
  · rfl
  · rfl

/-- Closed witness for C1: a scan with one succeeding store is ok, and
a scan whose only store throws raises that error. -/
theorem C1_scan_failure_aggregation_witness :
    (∃ l, KCCursorScan 1 [[.ok sampleRec]] = .ok l) ∧
    KCCursorScan 1 [[.error 3, .ok sampleRec]] = .error 3 :=
  ⟨C1_scan_failure_aggregation.1 1 [[.ok sampleRec]]
      ⟨[.ok sampleRec], by simp, rfl⟩,
    C1_scan_failure_aggregation.2.1 1 [] 3 [.ok sampleRec] (by simp)⟩

lemma scanFrom_ok_not_skipped :
    ∀ (stores : List StoreSeq) (allFailed : Bool) (status : Option Int)
      (l : List Rec),
      scanFrom CSSM_DL_DB_RECORD_ANY stores allFailed status = .ok l →
      ∀ r ∈ l, skipRec CSSM_DL_DB_RECORD_ANY r = false := by
  intro stores
  induction stores with
  | nil =>
    intro allFailed status l h r hr
    cases status with
    | none =>
      simp only [scanFrom] at h
      cases h
      exact absurd hr (List.not_mem_nil r)
    | some e =>
      simp only [scanFrom] at h
      cases allFailed with
      | true => simp at h
      | false =>
        simp at h
        subst h
        exact absurd hr (List.not_mem_nil r)
  | cons s rest ih =>
    intro allFailed status l h r hr
    simp only [scanFrom] at h
    cases hrec : scanFrom CSSM_DL_DB_RECORD_ANY rest
        (allFailed && !(storeSucceeded s))
        (match (storeSteps s).2 with
          | some e => some e
          | none => status) with
    | error e => rw [hrec] at h; cases h
    | ok l2 =>
      rw [hrec] at h
      cases h
      rcases List.mem_append.mp hr with hmem | hmem
      · have := List.of_mem_filter hmem
        simpa using this
      · exact ih _ _ l2 hrec r hmem

/-- C10: a cursor over all item classes (record type ANY) never yields
a record whose stored type is the CSP/DL db blob 0x80008000 or a
symmetric key; such records are skipped and iteration continues with
the next matching record. -/
theorem C10_any_scan_skips (stores : List StoreSeq) (l : List Rec)
    (h : KCCursorScan CSSM_DL_DB_RECORD_ANY stores = .ok l) :
    (∀ r ∈ l, r.recordType ≠ 0x80008000 ∧
      r.recordType ≠ CSSM_DL_DB_RECORD_SYMMETRIC_KEY) ∧
    KCCursorScan CSSM_DL_DB_RECORD_ANY
      [[.ok dbBlobRec, .ok symKeyRec, .ok sampleRec]] = .ok [sampleRec] := by
  constructor
  · intro r hr
    have hskip := scanFrom_ok_not_skipped stores true none l h r hr
    simp only [skipRec] at hskip
    constructor
    · intro hbad
      rw [hbad] at hskip
      simp [CSSM_DL_DB_RECORD_ANY] at hskip
    · intro hbad
      rw [hbad] at hskip
      simp [CSSM_DL_DB_RECORD_ANY] at hskip
  · rfl

/-- Closed witness for C10 at a concrete scan. -/
theorem C10_any_scan_skips_witness :
    sampleRec.recordType ≠ 0x80008000 ∧
    sampleRec.recordType ≠ CSSM_DL_DB_RECORD_SYMMETRIC_KEY :=
  (C10_any_scan_skips [[.ok sampleRec]] [sampleRec] rfl).1 sampleRec (by simp)

/-
Candidate name decomposition, from SecIdentityCopyPossiblePaths in
SecIdentity.cpp.  The CFURL primitives it calls are an external
platform library; per the design notes they are modelled as a generic
hierarchical identifier (scheme, authority, path segments, optional
query) together with its string rendering.  The segment list is stored
innermost first, so deleting the last path component is taking the
tail.
-/

/-- A decomposable hierarchical URL as handed back by the platform URL
parser.  revSegs holds the path segments innermost (last) first. -/
structure CFURL where
  scheme : String
  authority : String
  revSegs : List String
  query : Option String
deriving DecidableEq

/-- String rendering of a path segment list stored innermost first. -/
def pathString : List String → String
  | [] => ""
  | s :: rest => pathString rest ++ "/" ++ s

/-- Rendering of the optional query component, including the question
mark separator. -/
def queryPart : Option String → String
  | some q => "?" ++ q
  | none => ""

/-- CFURLGetString: full string rendering of the URL. -/
def urlString (u : CFURL) : String :=
  u.scheme ++ "://" ++ u.authority ++ pathString u.revSegs ++ queryPart u.query

/-- CFURLCreateCopyDeletingLastPathComponent: drops the last path
segment; none when there is no path component to delete (the platform
call would produce a longer dot-dot form there, which the caller
rejects through its length and prefix checks, so the produced candidate
lists agree). -/
def deleteLastPathComponent (u : CFURL) : Option CFURL :=
  match u.revSegs with
  | [] => none
  | _ :: rest => some { u with revSegs := rest }

/-- CFStringHasPrefix: whether the character sequence of p is a prefix
of the character sequence of s. -/
def hasPre (p s : String) : Bool := p.data.isPrefixOf s.data

/-- The input name as seen after the platform parse: either a string
that does not parse as a decomposable hierarchical URL, or the parsed
URL whose rendering is the name. -/
inductive NameInput where
  | plain (s : String)
  | url (u : CFURL)
deriving DecidableEq

/-- The string the caller passed in. -/
def nameOf : NameInput → String
  | .plain s => s
  | .url u => urlString u

/-- The while loop of SecIdentityCopyPossiblePaths lines 156-175: walk
parent URLs, appending each parent string while it is strictly shorter
than the previously accepted length and still a prefix of the original
name.  Recursion is on the segment list of the current URL; scheme,
authority and query are unchanged by parent steps. -/
def ancestorLoopAux (sch auth : String) (q : Option String) :
    List String → Nat → String → List String
  | [], _, _ => []
  | _ :: rest, oldLength, name =>
    let pStr := urlString ⟨sch, auth, rest, q⟩
    if oldLength ≤ pStr.length ∨ hasPre pStr name = false then []
    else pStr :: ancestorLoopAux sch auth q rest pStr.length name

/-- The ancestor walk starting from a URL. -/
def ancestorLoop (u : CFURL) (oldLength : Nat) (name : String) : List String :=
  ancestorLoopAux u.scheme u.authority u.query u.revSegs oldLength name

/-- SecIdentityCopyPossiblePaths lines 125-179: a non-URL name yields
the singleton list; a URL first has its query stripped (element 0),
then ancestors are appended by the parent walk.  The accepted-length
seed is the length of the original, unstripped name, as in the source. -/
def SecIdentityCopyPossiblePaths (inp : NameInput) : List String :=
  match inp with
  | .plain s => [s]
  | .url u =>
    let name := urlString u
    let oldLength := name.length
    match u.query with
    | some _ =>
      let u0 : CFURL := { u with query := none }
      urlString u0 :: ancestorLoop u0 oldLength name
    | none =>
      name :: ancestorLoop u oldLength name

lemma urlString_drop_lt (sch auth : String) (q : Option String)
    (s : String) (rest : List String) :
    (urlString ⟨sch, auth, rest, q⟩).length <
      (urlString ⟨sch, auth, s :: rest, q⟩).length := by
  have h1 : ("/" : String).length = 1 := rfl
  simp only [urlString, pathString, String.length_append, h1]
  omega

lemma ancestorLoopAux_chain (name : String) :
    ∀ (l : List String) (sch auth : String) (q : Option String) (old : Nat),
      List.Chain (fun a b => b.length < a.length ∧ hasPre b name = true)
        (urlString ⟨sch, auth, l, q⟩) (ancestorLoopAux sch auth q l old name) := by
  intro l
  induction l with
  | nil => intro sch auth q old; exact List.Chain.nil
  | cons s rest ih =>
    intro sch auth q old
    simp only [ancestorLoopAux]
    split
    · exact List.Chain.nil
    · rename_i hcond
      push_neg at hcond
      obtain ⟨hlt, hpre⟩ := hcond
      refine List.Chain.cons ⟨?_, ?_⟩ (ih sch auth q _)
      · exact urlString_drop_lt sch auth q s rest
      · cases hb : hasPre (urlString ⟨sch, auth, rest, q⟩) name with
        | true => rfl
        | false => exact absurd hb hpre

lemma ancestorLoopAux_parents (name : String) :
    ∀ (l : List String) (sch auth : String) (q : Option String) (old : Nat),
      ∃ us : List CFURL,
        ancestorLoopAux sch auth q l old name = us.map urlString ∧
        List.Chain (fun a b => deleteLastPathComponent a = some b)
          ⟨sch, auth, l, q⟩ us := by
  intro l
  induction l with
  | nil =>
    intro sch auth q old
    exact ⟨[], rfl, List.Chain.nil⟩
  | cons s rest ih =>
    intro sch auth q old
    simp only [ancestorLoopAux]
    split
    · exact ⟨[], rfl, List.Chain.nil⟩
    · obtain ⟨us, hmap, hchain⟩ :=
        ih sch auth q (urlString ⟨sch, auth, rest, q⟩).length
      refine ⟨⟨sch, auth, rest, q⟩ :: us, ?_, ?_⟩
      · simp [hmap]
      · exact List.Chain.cons (by simp [deleteLastPathComponent]) hchain

lemma query_none_eta (u : CFURL) (h : u.query = none) :
    ({ u with query := none } : CFURL) = u := by
  cases u
  simp only at h
  simp [h]

/-- C2: a non-hierarchical name decomposes to the singleton list of
itself; a hierarchical name decomposes to its query-stripped form
followed by successive parent-path ancestors, each strictly shorter
than its predecessor and a prefix of the original name, most specific
first and of length at least one. -/
theorem C2_candidate_decomposition :
    (∀ s : String, SecIdentityCopyPossiblePaths (NameInput.plain s) = [s]) ∧
    (∀ u : CFURL, ∃ tail,
      SecIdentityCopyPossiblePaths (NameInput.url u) =
        urlString { u with query := none } :: tail ∧
      1 ≤ (SecIdentityCopyPossiblePaths (NameInput.url u)).length ∧
      List.Chain (fun a b => b.length < a.length ∧
          hasPre b (urlString u) = true)
        (urlString { u with query := none }) tail ∧
      ∃ us : List CFURL, tail = us.map urlString ∧
        List.Chain (fun a b => deleteLastPathComponent a = some b)
          { u with query := none } us) := by
  constructor
  · intro s; rfl
  · intro u
    cases hq : u.query with
    | some q =>
      refine ⟨ancestorLoop { u with query := none }
          (urlString u).length (urlString u), ?_, ?_, ?_, ?_⟩
      · simp [SecIdentityCopyPossiblePaths, hq]
      · simp [SecIdentityCopyPossiblePaths, hq]
      · exact ancestorLoopAux_chain (urlString u) u.revSegs u.scheme
          u.authority none (urlString u).length
      · exact ancestorLoopAux_parents (urlString u) u.revSegs u.scheme
          u.authority none (urlString u).length
    | none =>
      have he : ({ u with query := none } : CFURL) = u := query_none_eta u hq
      refine ⟨ancestorLoopAux u.scheme u.authority none u.revSegs
          (urlString u).length (urlString u), ?_, ?_, ?_, ?_⟩
      · simp [SecIdentityCopyPossiblePaths, hq, ancestorLoop, he]
      · simp [SecIdentityCopyPossiblePaths, hq]
      · exact ancestorLoopAux_chain (urlString u) u.revSegs u.scheme
          u.authority none (urlString u).length
      · exact ancestorLoopAux_parents (urlString u) u.revSegs u.scheme
          u.authority none (urlString u).length

/-
Preference resolution, from SecIdentityCopyPreference and its helper
SecIdentityCopyPreferenceMatchingName in SecIdentity.cpp.  The stored
search list is a list of stores scanned through the multi-store
cursor; the per-store query engine applies the selection predicate, so
it is modelled by filtering each store sequence.
-/

/-- The selection predicate the helper adds to the cursor: service
equal to the candidate name, type attribute iprf, and the key usage
attribute only when the requested usage is nonzero. -/
def prefPred (name : String) (keyUsage : Int) (r : Rec) : Bool :=
  decide (r.service = name) && decide (r.typeTag = iprfTag) &&
    (decide (keyUsage = 0) || decide (r.usage = keyUsage))

/-- The per-store database engine returns only the records matching
the predicate; thrown errors are unaffected. -/
def filterStoreSeq (p : Rec → Bool) (s : StoreSeq) : StoreSeq :=
  s.filter (fun step =>
    match step with
    | .ok r => p r
    | .error _ => true)

/-- SecIdentityCopyPreferenceMatchingName lines 181-238: one cursor
pass over the search list for the given candidate name; an error means
the cursor threw (the helper itself catches nothing), ok none means
the cursor returned false and the helper reports errSecItemNotFound,
ok some is a match. -/
def SecIdentityCopyPreferenceMatchingName (stores : List StoreSeq)
    (name : String) (keyUsage : Int) : Except Int (Option Rec) :=
  match KCCursorScan CSSM_DL_DB_RECORD_GENERIC_PASSWORD
      (stores.map (filterStoreSeq (prefPred name keyUsage))) with
  | .error e => .error e
  | .ok l => .ok l.head?

/-- The candidate loop of SecIdentityCopyPreference lines 264-325:
status starts at errSecItemNotFound; each candidate is tried through
the helper with every thrown exception caught and turned into
errSecItemNotFound, and the loop breaks only on a match. -/
def copyPreferenceLoop (stores : List StoreSeq) (keyUsage : Int) :
    List String → Int → Int × Option Rec
  | [], status => (status, none)
  | c :: rest, _ =>
    match SecIdentityCopyPreferenceMatchingName stores c keyUsage with
    | .ok (some r) => (0, some r)
    | _ => copyPreferenceLoop stores keyUsage rest errSecItemNotFound

/-- SecIdentityCopyPreference: derive the candidate list from the name
and run the candidate loop. -/
def SecIdentityCopyPreference (stores : List StoreSeq) (inp : NameInput)
    (keyUsage : Int) : Int × Option Rec :=
  copyPreferenceLoop stores keyUsage (SecIdentityCopyPossiblePaths inp)
    errSecItemNotFound

/-- Modelled from the spec: first-match-wins ordered lookup over the
candidate list, used as the refinement target for the candidate loop. -/
def lookupFirstMatch (stores : List StoreSeq) (keyUsage : Int)
    (cs : List String) : Option Rec :=
  cs.findSome? (fun c =>
    match SecIdentityCopyPreferenceMatchingName stores c keyUsage with
    | .ok (some r) => some r
    | _ => none)

/-- Demo preference record stored only under the top-level authority. -/
def demoPref : Rec :=
  { recordType := CSSM_DL_DB_RECORD_GENERIC_PASSWORD
    service := "https://example.com", typeTag := iprfTag, usage := 0
    payload := 9 }

/-- Demo search list holding only the top-level preference. -/
def demoStores : List StoreSeq := [[.ok demoPref]]

/-- Demo name: a deep URL with a query component. -/
def demoName : NameInput :=
  .url { scheme := "https", authority := "example.com"
         revSegs := ["path"], query := some "x=1" }

lemma copyPreferenceLoop_eq (stores : List StoreSeq) (keyUsage : Int) :
    ∀ cs : List String,
      copyPreferenceLoop stores keyUsage cs errSecItemNotFound =
        match lookupFirstMatch stores keyUsage cs with
        | some r => (0, some r)
        | none => (errSecItemNotFound, none) := by
  intro cs
  induction cs with
  | nil => rfl
  | cons c rest ih =>
    simp only [copyPreferenceLoop, lookupFirstMatch, List.findSome?_cons]
    cases hm : SecIdentityCopyPreferenceMatchingName stores c keyUsage with
    | ok o =>
      cases o with
      | some r => rfl
      | none => simpa [lookupFirstMatch] using ih
    | error e => simpa [lookupFirstMatch] using ih

/-- C3: preference lookup tries the candidates derived from the name
in order, returns the first matching candidate without trying the
rest, swallows per-candidate failures, and fails with
errSecItemNotFound only after every candidate was tried; in particular
a deep URL succeeds when only a preference for its top-level authority
exists. -/
theorem C3_preference_fallback :
    (∀ (stores : List StoreSeq) (inp : NameInput) (keyUsage : Int),
      SecIdentityCopyPreference stores inp keyUsage =
        match lookupFirstMatch stores keyUsage
            (SecIdentityCopyPossiblePaths inp) with
        | some r => (0, some r)
        | none => (errSecItemNotFound, none)) ∧
    SecIdentityCopyPreference demoStores demoName 0 = (0, some demoPref) := by
  constructor
  · intro stores inp keyUsage
    exact copyPreferenceLoop_eq stores keyUsage
      (SecIdentityCopyPossiblePaths inp)
  · rfl

/-
Preference creation, from SecIdentityAddPreferenceItem and its helper
SecIdentityAddPreferenceItemWithName in SecIdentity.cpp.  A stored
preference record is modelled by its service key and the values
derived from the identity; the helper either appends the new record to
the target store or fails with a status, abstracted by a per-name
failure assignment covering the failure exits of the helper.
-/

/-- One created preference record: service key, account derived from
the certificate label, generic attribute holding the persistent
certificate reference. -/
structure PrefRec where
  service : String
  account : Nat
  generic : Nat
deriving DecidableEq

/-- SecIdentityAddPreferenceItemWithName lines 445-512: build the new
record for the given name and identity and add it to the keychain,
returning the failure status of whichever step fails, if any.  The
failure assignment fc abstracts the failure exits (data too large,
persistent reference creation, keychain add). -/
def SecIdentityAddPreferenceItemWithName (fc : String → Option Int)
    (name : String) (cert : Nat) (recs : List PrefRec) :
    Except Int (List PrefRec) :=
  match fc name with
  | some e => .error e
  | none => .ok (recs ++ [⟨name, cert, cert⟩])

/-- SecIdentityAddPreferenceItem lines 514-563: write a record for the
first (most specific) candidate, recording its status, and when there
is more than one candidate also write a record for the last (least
specific) candidate, discarding that status.  The returned status is
the status of the first write only. -/
def SecIdentityAddPreferenceItem (fc : String → Option Int)
    (inp : NameInput) (cert : Nat) (recs : List PrefRec) :
    Int × List PrefRec :=
  match SecIdentityCopyPossiblePaths inp with
  | [] => (internalComponentErr, recs)
  | n0 :: tail =>
    let first :=
      match SecIdentityAddPreferenceItemWithName fc n0 cert recs with
      | .ok r => ((0 : Int), r)
      | .error e => (e, recs)
    let recs2 :=
      match tail.getLast? with
      | none => first.2
      | some nl =>
        match SecIdentityAddPreferenceItemWithName fc nl cert first.2 with
        | .ok r => r
        | .error _ => first.2
    (first.1, recs2)

/-- C4: with no failures, addPreference creates exactly one record
(keyed by the single candidate) or exactly two records (keyed by the
most specific and the least specific candidate); the two writes are
independent, so a failing second write leaves the first in place, and
the returned status is the status of the first write alone. -/
theorem C4_addPreference_dual_write :
    ∀ (fc : String → Option Int) (inp : NameInput) (cert : Nat)
      (recs : List PrefRec) (n0 : String) (tail : List String),
      SecIdentityCopyPossiblePaths inp = n0 :: tail →
      (((∀ n, fc n = none) → tail = [] →
        SecIdentityAddPreferenceItem fc inp cert recs =
          (0, recs ++ [⟨n0, cert, cert⟩])) ∧
      ((∀ n, fc n = none) → ∀ nl, tail.getLast? = some nl →
        SecIdentityAddPreferenceItem fc inp cert recs =
          (0, recs ++ [⟨n0, cert, cert⟩, ⟨nl, cert, cert⟩])) ∧
      (∀ nl e, tail.getLast? = some nl → fc n0 = none → fc nl = some e →
        SecIdentityAddPreferenceItem fc inp cert recs =
          (0, recs ++ [⟨n0, cert, cert⟩])) ∧
      (∀ e, fc n0 = some e →
        (SecIdentityAddPreferenceItem fc inp cert recs).1 = e)) := by
  intro fc inp cert recs n0 tail hnames
  refine ⟨?_, ?_, ?_, ?_⟩
  · intro hok htail
    subst htail
    simp [SecIdentityAddPreferenceItem, hnames,
      SecIdentityAddPreferenceItemWithName, hok n0]
  · intro hok nl hlast
    simp [SecIdentityAddPreferenceItem, hnames, hlast,
      SecIdentityAddPreferenceItemWithName, hok n0, hok nl]
  · intro nl e hlast h0 hl
    simp [SecIdentityAddPreferenceItem, hnames, hlast,
      SecIdentityAddPreferenceItemWithName, h0, hl]
  · intro e h0
    simp [SecIdentityAddPreferenceItem, hnames,
      SecIdentityAddPreferenceItemWithName, h0]

/-- Closed witness for C4: on the demo deep URL with no failures both
the most specific and the top-level candidate get a record, and a
failing second write keeps the first record and the first status. -/
theorem C4_addPreference_dual_write_witness :
    SecIdentityAddPreferenceItem (fun _ => none) demoName 7 [] =
      (0, [⟨"https://example.com/path", 7, 7⟩, ⟨"https://example.com", 7, 7⟩]) ∧
    SecIdentityAddPreferenceItem
      (fun n => if n = "https://example.com" then some 11 else none)
      demoName 7 [] = (0, [⟨"https://example.com/path", 7, 7⟩]) :=
  ⟨(C4_addPreference_dual_write (fun _ => none) demoName 7 []
      "https://example.com/path" ["https://example.com"] rfl).2.1
      (fun _ => rfl) "https://example.com" rfl,
    (C4_addPreference_dual_write
      (fun n => if n = "https://example.com" then some 11 else none)
      demoName 7 [] "https://example.com/path" ["https://example.com"]
      rfl).2.2.1 "https://example.com" 11 rfl (by simp) (by simp)⟩

/-
Storage manager, from StorageManager.cpp: the keychain handle cache
(StorageManager::keychain and StorageManager::removeKeychain), the
effective search list (getSearchList), search list persistence
(setSearchList) and the default keychain accessor (defaultKeychain).
Handles are allocation tokens: the cache maps an identifier to the
token of the live handle object, and each handle owns its in-cache
flag.
-/

/-- A DLDbIdentifier: module reference, subservice, version and store
name.  Equality is structural. -/
structure DLDbId where
  guid : Nat
  subserviceId : Nat
  version : Nat
  dbName : String
deriving DecidableEq

/-- The keychain registry: the identifier-to-handle cache, the set of
handle tokens whose in-cache flag is set, and the next fresh handle
token. -/
structure Registry where
  cache : List (DLDbId × Nat)
  flags : List Nat
  nextHandle : Nat
deriving DecidableEq

/-- Lookup of an identifier in the cache map (std::map::find keyed by
structural identifier equality). -/
def cacheLookup : List (DLDbId × Nat) → DLDbId → Option Nat
  | [], _ => none
  | e :: rest, id => if e.1 = id then some e.2 else cacheLookup rest id

/-- Erase the entry found for an identifier (std::map::erase of the
iterator returned by find). -/
def cacheErase : List (DLDbId × Nat) → DLDbId → List (DLDbId × Nat)
  | [], _ => []
  | e :: rest, id => if e.1 = id then rest else e :: cacheErase rest id

/-- StorageManager::keychain lines 102-137: return the cached handle
for the identifier when present, otherwise open a fresh handle, insert
it into the cache, mark it in-cache and return it. -/
def keychainResolve (st : Registry) (id : DLDbId) : Nat × Registry :=
  match cacheLookup st.cache id with
  | some h => (h, st)
  | none =>
    let h := st.nextHandle
    (h, { cache := (id, h) :: st.cache, flags := h :: st.flags
          nextHandle := h + 1 })

/-- StorageManager::removeKeychain lines 139-156: return unchanged if
the handle is not flagged in-cache; otherwise erase the cache entry
for the identifier only when it still maps to this very handle, and
clear the in-cache flag of the handle. -/
def removeKeychain (st : Registry) (id : DLDbId) (h : Nat) : Registry :=
  if h ∈ st.flags then
    let cache2 :=
      match cacheLookup st.cache id with
      | some h2 => if h2 = h then cacheErase st.cache id else st.cache
      | none => st.cache
    { st with cache := cache2, flags := st.flags.filter (fun x => x != h) }
  else st

/-- The cache never holds two entries for equal identifiers. -/
def cacheKeysNodup (st : Registry) : Prop := (st.cache.map Prod.fst).Nodup

/-- Every cached handle has its in-cache flag set. -/
def flagInv (st : Registry) : Prop := ∀ p ∈ st.cache, p.2 ∈ st.flags

lemma cacheLookup_none_notMem {c : List (DLDbId × Nat)} {id : DLDbId}
    (h : cacheLookup c id = none) : id ∉ c.map Prod.fst := by
  induction c with
  | nil => simp
  | cons e rest ih =>
    simp only [cacheLookup] at h
    by_cases he : e.1 = id
    · simp [he] at h
    · simp only [he, if_false] at h
      simp only [List.map_cons, List.mem_cons]
      rintro (hbad | hbad)
      · exact he hbad.symm
      · exact ih h hbad

lemma cacheLookup_some_mem {c : List (DLDbId × Nat)} {id : DLDbId} {h : Nat}
    (hl : cacheLookup c id = some h) : (id, h) ∈ c := by
  induction c with
  | nil => simp [cacheLookup] at hl
  | cons e rest ih =>
    simp only [cacheLookup] at hl
    by_cases he : e.1 = id
    · simp only [he, if_true, Option.some.injEq] at hl
      have hee : e = (id, h) := by cases e; simp_all
      rw [hee]
      exact List.mem_cons_self _ _
    · simp only [he, if_false] at hl
      exact List.mem_cons_of_mem _ (ih hl)

/-- C6: resolving the same identifier twice, including two
structurally equal but separately constructed identifiers, returns the
identical cached handle both times and keeps the registry unchanged on
the second call, and resolution preserves the at-most-one-entry-per-
identifier invariant. -/
theorem C6_resolve_cached (st : Registry) (id1 id2 : DLDbId)
    (heq : id1 = id2) (hinv : cacheKeysNodup st) :
    (keychainResolve (keychainResolve st id1).2 id2).1 =
      (keychainResolve st id1).1 ∧
    (keychainResolve (keychainResolve st id1).2 id2).2 =
      (keychainResolve st id1).2 ∧
    cacheKeysNodup (keychainResolve st id1).2 := by
  subst heq
  cases hl : cacheLookup st.cache id1 with
  | some h =>
    refine ⟨?_, ?_, ?_⟩ <;> simp [keychainResolve, hl, hinv]
  | none =>
    have hstep : keychainResolve st id1 =
        (st.nextHandle,
          { cache := (id1, st.nextHandle) :: st.cache
            flags := st.nextHandle :: st.flags
            nextHandle := st.nextHandle + 1 }) := by
      simp [keychainResolve, hl]
    refine ⟨?_, ?_, ?_⟩
    · rw [hstep]
      simp [keychainResolve, cacheLookup]
    · rw [hstep]
      simp [keychainResolve, cacheLookup]
    · rw [hstep]
      simp only [cacheKeysNodup, List.map_cons]
      exact List.nodup_cons.mpr ⟨cacheLookup_none_notMem hl, hinv⟩

/-- Closed witness for C6 on the empty registry. -/
theorem C6_resolve_cached_witness :
    (keychainResolve (keychainResolve ⟨[], [], 0⟩ ⟨1, 2, 3, "kc"⟩).2
        ⟨1, 2, 3, "kc"⟩).1 =
      (keychainResolve ⟨[], [], 0⟩ ⟨1, 2, 3, "kc"⟩).1 ∧
    (keychainResolve (keychainResolve ⟨[], [], 0⟩ ⟨1, 2, 3, "kc"⟩).2
        ⟨1, 2, 3, "kc"⟩).2 =
      (keychainResolve ⟨[], [], 0⟩ ⟨1, 2, 3, "kc"⟩).2 ∧
    cacheKeysNodup (keychainResolve ⟨[], [], 0⟩ ⟨1, 2, 3, "kc"⟩).2 :=
  C6_resolve_cached ⟨[], [], 0⟩ ⟨1, 2, 3, "kc"⟩ ⟨1, 2, 3, "kc"⟩ rfl
    (by simp [cacheKeysNodup])

/-- C7: eviction removes the cache mapping exactly when the cached
handle for the identifier is identically the given handle, and a
second eviction of the same pair is a no-op leaving the registry
unchanged. -/
theorem C7_evict_guarded_idempotent (st : Registry) (id : DLDbId) (h : Nat)
    (hinv : flagInv st) :
    ((removeKeychain st id h).cache =
      if cacheLookup st.cache id = some h then cacheErase st.cache id
      else st.cache) ∧
    removeKeychain (removeKeychain st id h) id h = removeKeychain st id h := by
  constructor
  · by_cases hm : h ∈ st.flags
    · simp only [removeKeychain, hm, if_true]
      cases hl : cacheLookup st.cache id with
      | some h2 =>
        by_cases hh : h2 = h
        · subst hh
          simp [hl]
        · simp [hl, hh, Ne.symm hh]
      | none => simp [hl]
    · simp only [removeKeychain, hm, if_false]
      cases hl : cacheLookup st.cache id with
      | some h2 =>
        by_cases hh : h2 = h
        · subst hh
          exact absurd (hinv (id, h2) (cacheLookup_some_mem hl)) hm
        · simp [hl, hh, Ne.symm hh]
      | none => simp [hl]
  · by_cases hm : h ∈ st.flags
    · have hout : h ∉ (removeKeychain st id h).flags := by
        simp only [removeKeychain, hm, if_true]
        simp [List.mem_filter]
      simp only [removeKeychain, hout, if_false]
      simp [removeKeychain, hm]
    · simp [removeKeychain, hm]

/-- Closed witness for C7 on a one-entry registry. -/
theorem C7_evict_guarded_idempotent_witness :
    ((removeKeychain ⟨[(⟨1, 2, 3, "kc"⟩, 0)], [0], 1⟩ ⟨1, 2, 3, "kc"⟩ 0).cache =
      if cacheLookup [(⟨1, 2, 3, "kc"⟩, 0)] ⟨1, 2, 3, "kc"⟩ = some 0 then
        cacheErase [(⟨1, 2, 3, "kc"⟩, 0)] ⟨1, 2, 3, "kc"⟩
      else [(⟨1, 2, 3, "kc"⟩, 0)]) ∧
    removeKeychain (removeKeychain ⟨[(⟨1, 2, 3, "kc"⟩, 0)], [0], 1⟩
        ⟨1, 2, 3, "kc"⟩ 0) ⟨1, 2, 3, "kc"⟩ 0 =
      removeKeychain ⟨[(⟨1, 2, 3, "kc"⟩, 0)], [0], 1⟩ ⟨1, 2, 3, "kc"⟩ 0 :=
  C7_evict_guarded_idempotent ⟨[(⟨1, 2, 3, "kc"⟩, 0)], [0], 1⟩
    ⟨1, 2, 3, "kc"⟩ 0 (by intro p hp; simp at hp; simp [hp])

/-- The storage manager state: the registry, the dynamic list, the
persisted search list of the current domain, the common list, the
persisted default identifier, and the server mode flag. -/
structure SMState where
  registry : Registry
  dynamicL : List DLDbId
  savedL : List DLDbId
  commonL : List DLDbId
  savedDefault : Option DLDbId
  serverMode : Bool

/-- One push_back loop of StorageManager::getSearchList: resolve each
identifier through the registry cache and append the handle to the
accumulated result. -/
def resolveAppend (reg : Registry) (acc : List Nat) :
    List DLDbId → List Nat × Registry
  | [] => (acc, reg)
  | id :: rest =>
    let p := keychainResolve reg id
    resolveAppend p.2 (acc ++ [p.1]) rest

/-- StorageManager::getSearchList lines 640-682: empty in server mode;
otherwise the dynamic list, then the saved list of the current domain, then
the common list, each resolved to live handles in order. -/
def getSearchList (st : SMState) : List Nat × SMState :=
  if st.serverMode then ([], st)
  else
    let p1 := resolveAppend st.registry [] st.dynamicL
    let p2 := resolveAppend p1.2 p1.1 st.savedL
    let p3 := resolveAppend p2.2 p2.1 st.commonL
    (p3.1, { st with registry := p3.2 })

lemma resolveAppend_acc :
    ∀ (l : List DLDbId) (reg : Registry) (acc : List Nat),
      resolveAppend reg acc l =
        (acc ++ (resolveAppend reg [] l).1, (resolveAppend reg [] l).2) := by
  intro l
  induction l with
  | nil => intro reg acc; simp [resolveAppend]
  | cons id rest ih =>
    intro reg acc
    simp only [resolveAppend]
    rw [ih (keychainResolve reg id).2 (acc ++ [(keychainResolve reg id).1]),
      ih (keychainResolve reg id).2 ([] ++ [(keychainResolve reg id).1])]
    simp

lemma resolveAppend_length :
    ∀ (l : List DLDbId) (reg : Registry),
      (resolveAppend reg [] l).1.length = l.length := by
  intro l
  induction l with
  | nil => intro reg; rfl
  | cons id rest ih =>
    intro reg
    simp only [resolveAppend]
    rw [resolveAppend_acc rest (keychainResolve reg id).2
      ([] ++ [(keychainResolve reg id).1])]
    simp [ih]

/-- C5: outside server mode the effective search list is the dynamic
handles, then the current domain handles, then the common handles, in
exactly that order, one handle per listed identifier. -/
theorem C5_effective_search_list_order (st : SMState)
    (hs : st.serverMode = false) :
    ∃ hd hu hc : List Nat,
      (getSearchList st).1 = hd ++ hu ++ hc ∧
      hd = (resolveAppend st.registry [] st.dynamicL).1 ∧
      hu = (resolveAppend (resolveAppend st.registry [] st.dynamicL).2 []
        st.savedL).1 ∧
      hc = (resolveAppend (resolveAppend (resolveAppend st.registry []
        st.dynamicL).2 [] st.savedL).2 [] st.commonL).1 ∧
      hd.length = st.dynamicL.length ∧
      hu.length = st.savedL.length ∧
      hc.length = st.commonL.length := by
  refine ⟨_, _, _, ?_, rfl, rfl, rfl,
    resolveAppend_length _ _, resolveAppend_length _ _,
    resolveAppend_length _ _⟩
  simp only [getSearchList, hs, if_false, Bool.false_eq_true]
  rw [resolveAppend_acc st.savedL (resolveAppend st.registry [] st.dynamicL).2
    (resolveAppend st.registry [] st.dynamicL).1]
  rw [resolveAppend_acc st.commonL]

/-- Demo storage manager state with one store in each list. -/
def demoSM : SMState :=
  { registry := ⟨[], [], 0⟩
    dynamicL := [⟨1, 1, 1, "dyn"⟩]
    savedL := [⟨2, 2, 2, "user"⟩]
    commonL := [⟨3, 3, 3, "common"⟩]
    savedDefault := none
    serverMode := false }

/-- Closed witness for C5 at the demo state. -/
theorem C5_effective_search_list_order_witness :
    ∃ hd hu hc : List Nat,
      (getSearchList demoSM).1 = hd ++ hu ++ hc ∧
      hd = (resolveAppend demoSM.registry [] demoSM.dynamicL).1 ∧
      hu = (resolveAppend (resolveAppend demoSM.registry []
        demoSM.dynamicL).2 [] demoSM.savedL).1 ∧
      hc = (resolveAppend (resolveAppend (resolveAppend demoSM.registry []
        demoSM.dynamicL).2 [] demoSM.savedL).2 [] demoSM.commonL).1 ∧
      hd.length = demoSM.dynamicL.length ∧
      hu.length = demoSM.savedL.length ∧
      hc.length = demoSM.commonL.length :=
  C5_effective_search_list_order demoSM rfl

/-- The common suffix stripping loop of StorageManager::setSearchList
lines 689-704, phrased on reversed lists: consume matching elements
from the end of the incoming list against the end of the common list,
stopping at the first mismatch (keeping the mismatching element) or
when the incoming list is exhausted. -/
def stripCommonAux : List DLDbId → List DLDbId → List DLDbId
  | rk, [] => rk
  | rk, c :: rc =>
    match rk with
    | [] => []
    | k :: rk2 => if k = c then stripCommonAux rk2 rc else rk

/-- The persisted value computed by setSearchList: the incoming list
with a trailing run matching the common list stripped. -/
def setSearchListStrip (kcs common : List DLDbId) : List DLDbId :=
  (stripCommonAux kcs.reverse common.reverse).reverse

/-- StorageManager::setSearchList lines 684-726 (current domain): save
the stripped sequence as the search list of the domain. -/
def setSearchList (st : SMState) (kcs : List DLDbId) : SMState :=
  { st with savedL := setSearchListStrip kcs st.commonL }

lemma stripCommonAux_append :
    ∀ (l rk : List DLDbId), stripCommonAux (l ++ rk) l = rk := by
  intro l
  induction l with
  | nil => intro rk; simp [stripCommonAux]
  | cons c rc ih =>
    intro rk
    simp only [List.cons_append, stripCommonAux, if_pos rfl]
    exact ih rk

/-- C8: when the sequence passed to setSearchList for the current
domain ends in exactly the full common list, only the part before that
common suffix is persisted. -/
theorem C8_setSearchList_strips_common (st : SMState) (p : List DLDbId) :
    (setSearchList st (p ++ st.commonL)).savedL = p := by
  simp only [setSearchList, setSearchListStrip, List.reverse_append]
  rw [stripCommonAux_append st.commonL.reverse p.reverse]
  simp

/-- The existence test of the backing database of a store, supplied by the
store backend; the source of defaultKeychain does not consult it. -/
def demoMissing : DLDbId → Bool := fun _ => false

/-- StorageManager::defaultKeychain lines 270-287: raise
errSecNoDefaultKeychain when no default identifier is set, otherwise
resolve the identifier through the registry and return that handle.
The existence check on the resolved handle is commented out in the
source, so the handle is returned whether or not the backing store
still exists. -/
def defaultKeychain (st : SMState) : Except Int (Nat × SMState) :=
  match st.savedDefault with
  | some id =>
    let p := keychainResolve st.registry id
    .ok (p.1, { st with registry := p.2 })
  | none => .error errSecNoDefaultKeychain

/-- Demo state with a default identifier set whose backing store does
not exist according to the backend. -/
def demoSM9 : SMState :=
  { registry := ⟨[], [], 0⟩
    dynamicL := []
    savedL := []
    commonL := []
    savedDefault := some ⟨1, 2, 3, "gone"⟩
    serverMode := false }

/-- Counterexample to C9: with a default identifier set and its
backing store reported nonexistent by the backend, getting the default
store still returns a handle instead of raising NotFound. -/
theorem C9_counterexample :
    demoSM9.savedDefault = some ⟨1, 2, 3, "gone"⟩ ∧
    demoMissing ⟨1, 2, 3, "gone"⟩ = false ∧
    defaultKeychain demoSM9 =
      .ok (0, { demoSM9 with registry := ⟨[(⟨1, 2, 3, "gone"⟩, 0)], [0], 1⟩ }) :=
  ⟨rfl, rfl, rfl⟩

/-- C9 as amended: getting the default store raises NotFound exactly
when the default identifier is unset; when an identifier is set the
resolved handle is returned without checking that the backing store
still exists. -/
theorem C9_default_keychain_amended (st : SMState) :
    (st.savedDefault = none →
      defaultKeychain st = .error errSecNoDefaultKeychain) ∧
    (∀ id, st.savedDefault = some id →
      ∃ hnd st2, defaultKeychain st = .ok (hnd, st2)) := by
  constructor
  · intro h
    simp [defaultKeychain, h]
  · intro id h
    refine ⟨(keychainResolve st.registry id).1,
      { st with registry := (keychainResolve st.registry id).2 }, ?_⟩
    simp [defaultKeychain, h]

/-- Closed witness for C9 as amended, at a set and an unset state. -/
theorem C9_default_keychain_amended_witness :
    (∃ hnd st2, defaultKeychain demoSM9 = .ok (hnd, st2)) ∧
    defaultKeychain demoSM = .error errSecNoDefaultKeychain :=
  ⟨(C9_default_keychain_amended demoSM9).2 ⟨1, 2, 3, "gone"⟩ rfl,
    (C9_default_keychain_amended demoSM).1 rfl⟩

end KeychainModel
